import Mathlib

/-!
Verification development for the OpenImageDebugger bridge core: the wire
primitives (`src/ipc/message_composer.cpp`, `src/ipc/message_decoder.cpp`)
and the bridge session queue discipline (`src/oidbridge/oid_bridge.cpp`).

Strings travelling on the wire are byte sequences (`std::string` is an
uninterpreted byte container here), modelled as `List Nat`; `size_t` is the
64-bit host integer, transmitted as its 8 bytes in host (little-endian)
order.
-/

namespace OidSpec

/-- Byte strings: the content of a `std::string` on the wire. -/
abbrev ByteStr := List Nat

/-- The 8 memory bytes of a `size_t` value, least significant first.
Models `MessageComposer::push<size_t>` writing a `PrimitiveBlock<size_t>`
(`primitive_block.h`): the raw in-memory bytes of the value. -/
def bytesOfSizeT (n : Nat) : List Nat :=
  (List.range 8).map (fun i => n / 256 ^ i % 256)

/-- Reassemble a `size_t` from its little-endian memory bytes, as
`MessageDecoder::read_impl` filling the 8 bytes of a `size_t` does. -/
def sizeTOfBytes (bs : List Nat) : Nat :=
  bs.foldr (fun b acc => b + 256 * acc) 0

/-- Decoder for one fixed-size `size_t` field
(`MessageDecoder::read<PrimitiveType>` with `PrimitiveType = size_t`):
consume exactly 8 bytes from the stream.  `none` models the decoder
blocking forever because the stream never delivers enough bytes. -/
def decodeSizeT (s : List Nat) : Option (Nat × List Nat) :=
  if 8 ≤ s.length then some (sizeTOfBytes (s.take 8), s.drop 8) else none

/-- `MessageComposer::push<std::string>` (message_composer.cpp):
`push(value.size())` followed by a `StringBlock` holding the raw bytes. -/
def encodeString (s : ByteStr) : List Nat :=
  bytesOfSizeT s.length ++ s

/-- `MessageDecoder::read<std::string>` (message_decoder.cpp): read the
`size_t` length, resize the destination to that length and fill it with
exactly that many bytes from the stream. -/
def decodeString (s : List Nat) : Option (ByteStr × List Nat) :=
  match decodeSizeT s with
  | none => none
  | some (n, r) =>
      if n ≤ r.length then some (r.take n, r.drop n) else none

/-- `MessageComposer::push<std::deque<std::string>>`:
`push(container.size())` then each string in order. -/
def encodeStringSeq (l : List ByteStr) : List Nat :=
  bytesOfSizeT l.length ++ (l.map encodeString).flatten

/-- The value of `static_cast<int>(number_symbols)` for a 64-bit
`size_t`: truncate to 32 bits and reinterpret as a signed two's-complement
`int` (the conversion mainstream compilers perform). -/
def intOfSizeT (n : Nat) : Int :=
  if n % 2 ^ 32 < 2 ^ 31 then ((n % 2 ^ 32 : Nat) : Int)
  else ((n % 2 ^ 32 : Nat) : Int) - 2 ^ 32

/-- Number of iterations of `for (int s = 0; s < static_cast<int>(number_symbols); ++s)`
in `MessageDecoder::read<StringContainer, StringType>` (message_decoder.h). -/
def seqIterations (n : Nat) : Nat :=
  (intOfSizeT n).toNat

/-- Decode `count` consecutive strings, appending in arrival order (the
loop body of `MessageDecoder::read<StringContainer, StringType>`). -/
def decodeStrings : Nat → List Nat → Option (List ByteStr × List Nat)
  | 0, s => some ([], s)
  | k + 1, s =>
      match decodeString s with
      | none => none
      | some (v, r) =>
          match decodeStrings k r with
          | none => none
          | some (vs, r2) => some (v :: vs, r2)

/-- `MessageDecoder::read<StringContainer, StringType>` (message_decoder.h):
read the `size_t` count, then decode `static_cast<int>(count)` strings in
order into an initially empty container. -/
def decodeStringSeq (s : List Nat) : Option (List ByteStr × List Nat) :=
  match decodeSizeT s with
  | none => none
  | some (n, r) => decodeStrings (seqIterations n) r

/-- `MessageDecoder::read<QString>` (message_decoder.cpp): read the
`size_t` length, allocate `length + 1` NUL bytes, fill the first `length`
of them from the stream, then construct the result from the buffer taken
as a NUL-terminated C string. -/
def decodeQString (s : List Nat) : Option (ByteStr × List Nat) :=
  match decodeSizeT s with
  | none => none
  | some (n, r) =>
      if n ≤ r.length then
        some (((r.take n ++ [0]).takeWhile (fun b => b != 0)), r.drop n)
      else none

/- ### Round-trip lemmas for the wire primitives -/

theorem take_len_append (l r : List Nat) : (l ++ r).take l.length = l := by
  induction l with
  | nil => simp
  | cons a t ih => simp [ih]

theorem drop_len_append (l r : List Nat) : (l ++ r).drop l.length = r := by
  induction l with
  | nil => simp
  | cons a t ih => simp [ih]

theorem length_bytesOfSizeT (n : Nat) : (bytesOfSizeT n).length = 8 := by
  simp [bytesOfSizeT]

theorem sizeT_round_trip (n : Nat) :
    sizeTOfBytes (bytesOfSizeT n) = n % 2 ^ 64 := by
  simp only [bytesOfSizeT, sizeTOfBytes]
  show (List.range 8).foldr (fun i acc => n / 256 ^ i % 256 + 256 * acc) 0 = n % 2 ^ 64
  simp [List.range_succ]
  omega

theorem decodeSizeT_encode (n : Nat) (r : List Nat) :
    decodeSizeT (bytesOfSizeT n ++ r) = some (n % 2 ^ 64, r) := by
  have hlen : (bytesOfSizeT n).length = 8 := length_bytesOfSizeT n
  have h8 : 8 ≤ (bytesOfSizeT n ++ r).length := by
    simp [hlen]
  simp only [decodeSizeT, if_pos h8]
  have ht : (bytesOfSizeT n ++ r).take 8 = bytesOfSizeT n := by
    have := take_len_append (bytesOfSizeT n) r
    rwa [hlen] at this
  have hd : (bytesOfSizeT n ++ r).drop 8 = r := by
    have := drop_len_append (bytesOfSizeT n) r
    rwa [hlen] at this
  rw [ht, hd, sizeT_round_trip]

theorem decodeString_encode (s : ByteStr) (r : List Nat)
    (h : s.length < 2 ^ 64) :
    decodeString (encodeString s ++ r) = some (s, r) := by
  simp only [encodeString, List.append_assoc, decodeString,
    decodeSizeT_encode, Nat.mod_eq_of_lt h]
  have hle : s.length ≤ (s ++ r).length := by simp
  rw [if_pos hle, take_len_append, drop_len_append]

theorem decodeStrings_encode (l : List ByteStr) (r : List Nat)
    (h : ∀ x ∈ l, x.length < 2 ^ 64) :
    decodeStrings l.length ((l.map encodeString).flatten ++ r) = some (l, r) := by
  induction l generalizing r with
  | nil => simp [decodeStrings]
  | cons a t ih =>
      have ha : a.length < 2 ^ 64 := h a (by simp)
      have ht : ∀ x ∈ t, x.length < 2 ^ 64 := fun x hx => h x (by simp [hx])
      simp only [List.map_cons, List.flatten_cons, List.length_cons,
        List.append_assoc, decodeStrings, decodeString_encode a _ ha,
        ih _ ht]

theorem seqIterations_small (n : Nat) (h : n < 2 ^ 31) : seqIterations n = n := by
  have h32 : n % 2 ^ 32 = n := Nat.mod_eq_of_lt (by omega)
  simp only [seqIterations, intOfSizeT, h32, if_pos h]
  simp

theorem decodeStringSeq_encode (l : List ByteStr) (r : List Nat)
    (hcount : l.length < 2 ^ 31) (h : ∀ x ∈ l, x.length < 2 ^ 64) :
    decodeStringSeq (encodeStringSeq l ++ r) = some (l, r) := by
  simp only [encodeStringSeq, List.append_assoc, decodeStringSeq,
    decodeSizeT_encode, Nat.mod_eq_of_lt (show l.length < 2 ^ 64 by omega),
    seqIterations_small l.length hcount]
  exact decodeStrings_encode l r h

theorem takeWhile_append_sentinel (s : ByteStr) :
    (s ++ [0]).takeWhile (fun b => b != 0) = s.takeWhile (fun b => b != 0) := by
  induction s with
  | nil => simp [List.takeWhile]
  | cons a t ih =>
      by_cases ha : a = 0
      · simp [List.takeWhile, ha]
      · simp [List.takeWhile, ha, ih]

theorem takeWhile_ne_of_mem_zero (s : ByteStr) (h : 0 ∈ s) :
    s.takeWhile (fun b => b != 0) ≠ s := by
  induction s with
  | nil => simp at h
  | cons a t ih =>
      by_cases ha : a = 0
      · subst ha
        simp [List.takeWhile_cons]
      · have ht : 0 ∈ t := by
          rcases List.mem_cons.mp h with h1 | h1
          · exact absurd h1.symm ha
          · exact h1
        rw [List.takeWhile_cons, if_pos (by simp [ha])]
        intro hEq
        simp only [List.cons.injEq, true_and] at hEq
        exact ih ht hEq

theorem decodeQString_encode (s : ByteStr) (r : List Nat)
    (h : s.length < 2 ^ 64) :
    decodeQString (encodeString s ++ r) =
      some (s.takeWhile (fun b => b != 0), r) := by
  simp only [encodeString, List.append_assoc, decodeQString,
    decodeSizeT_encode, Nat.mod_eq_of_lt h]
  have hle : s.length ≤ (s ++ r).length := by simp
  rw [if_pos hle, take_len_append, drop_len_append, takeWhile_append_sentinel]

/-- C4 (amended). Wire round-trip: encoding a string with
`MessageComposer::push<std::string>` and decoding it with
`MessageDecoder::read<std::string>` returns the original bytes (including
empty strings and strings with embedded NUL bytes) with the rest of the
stream untouched; encoding a sequence of strings and decoding it back
preserves length, content and order, for every sequence whose count fits
in a C `int` (below 2^31 — the decoder loop casts the transmitted count
to `int`). -/
theorem wire_round_trip :
    (∀ (s : ByteStr) (rest : List Nat), s.length < 2 ^ 64 →
        decodeString (encodeString s ++ rest) = some (s, rest)) ∧
    (∀ (l : List ByteStr) (rest : List Nat), l.length < 2 ^ 31 →
        (∀ x ∈ l, x.length < 2 ^ 64) →
        decodeStringSeq (encodeStringSeq l ++ rest) = some (l, rest)) :=
  ⟨fun s rest h => decodeString_encode s rest h,
   fun l rest hc h => decodeStringSeq_encode l rest hc h⟩

/-- Witness for C4: a string with an embedded NUL byte and a sequence of
an empty and a nonempty string round-trip concretely. -/
theorem wire_round_trip_witness :
    ([0, 65] : ByteStr).length < 2 ^ 64 ∧
    decodeString (encodeString [0, 65] ++ [7]) = some ([0, 65], [7]) ∧
    decodeStringSeq (encodeStringSeq [[], [97]] ++ [9]) = some ([[], [97]], [9]) :=
  ⟨by decide,
   wire_round_trip.1 [0, 65] [7] (by decide),
   wire_round_trip.2 [[], [97]] [9] (by decide) (by decide)⟩

/-- Counterexample to C4 as frozen: for a sequence of 2^31 (empty)
strings, the decoder's `static_cast<int>` of the transmitted count is the
negative value -2^31, so the decode loop runs zero times and the decoded
sequence is empty rather than the original. -/
theorem decodeStringSeq_eq_of (s : List Nat) (n : Nat) (r : List Nat)
    (h : decodeSizeT s = some (n, r)) :
    decodeStringSeq s = decodeStrings (seqIterations n) r := by
  unfold decodeStringSeq
  rw [h]

theorem seq_roundtrip_counterexample :
    decodeStringSeq (encodeStringSeq (List.replicate (2 ^ 31) ([] : ByteStr)))
      ≠ some (List.replicate (2 ^ 31) ([] : ByteStr), []) := by
  have hiter : seqIterations (2 ^ 31) = 0 := by decide
  have key : ∀ (l : List ByteStr), l.length = 2 ^ 31 →
      decodeStringSeq (encodeStringSeq l) =
        some ([], (l.map encodeString).flatten) := by
    intro l hl
    have h1 : decodeSizeT (encodeStringSeq l) =
        some (2 ^ 31, (l.map encodeString).flatten) := by
      unfold encodeStringSeq
      rw [hl, decodeSizeT_encode, Nat.mod_eq_of_lt (by norm_num)]
    rw [decodeStringSeq_eq_of _ _ _ h1, hiter]
    rfl
  intro hEq
  rw [key (List.replicate (2 ^ 31) ([] : ByteStr))
      (List.length_replicate _ _)] at hEq
  injection hEq with h2
  have h3 := congrArg List.length (congrArg Prod.fst h2)
  rw [List.length_replicate] at h3
  exact absurd h3 (by decide)

/-- C10. Viewer-side `QString` decode truncates at the first NUL byte: it
consumes exactly the declared number of bytes (the stream cursor stays in
sync — the remainder `rest` is untouched), but the constructed value is
only the prefix of the transmitted bytes up to the first NUL, so any
string with an embedded NUL is not preserved — unlike the `std::string`
decode path, which returns the bytes exactly. -/
theorem qstring_decode_truncates_at_nul :
    ∀ (s : ByteStr) (rest : List Nat), s.length < 2 ^ 64 →
      decodeQString (encodeString s ++ rest) =
        some (s.takeWhile (fun b => b != 0), rest) ∧
      decodeString (encodeString s ++ rest) = some (s, rest) ∧
      (0 ∈ s → s.takeWhile (fun b => b != 0) ≠ s) :=
  fun s rest h =>
    ⟨decodeQString_encode s rest h,
     decodeString_encode s rest h,
     fun h0 => takeWhile_ne_of_mem_zero s h0⟩

/-- Witness for C10: the three-byte string 65,0,66 decodes as just 65 on
the `QString` path while the `std::string` path preserves it. -/
theorem qstring_decode_truncates_at_nul_witness :
    ([65, 0, 66] : ByteStr).length < 2 ^ 64 ∧
    (decodeQString (encodeString [65, 0, 66] ++ [5]) =
        some (([65, 0, 66] : ByteStr).takeWhile (fun b => b != 0), [5]) ∧
      decodeString (encodeString [65, 0, 66] ++ [5]) = some ([65, 0, 66], [5]) ∧
      (0 ∈ ([65, 0, 66] : ByteStr) →
        ([65, 0, 66] : ByteStr).takeWhile (fun b => b != 0) ≠ [65, 0, 66])) :=
  ⟨by decide, qstring_decode_truncates_at_nul [65, 0, 66] [5] (by decide)⟩

/-!
## Bridge session state (src/oidbridge/oid_bridge.cpp)

`MessageType` is the frame discriminant (message_type.h is outside the
protocol sources given here, so the enumeration lists the five kinds the
spec's message catalog names plus a constructor for any other raw
discriminant value read off the wire — the numeric values never matter to
the queue logic, only identity does).  `UiMsg` is the decoded
`UiMessage` hierarchy: the bridge only ever constructs
`PlotBufferRequestMessage` and `GetObservedSymbolsResponseMessage`.
-/

inductive MessageType
  | getObservedSymbols
  | getObservedSymbolsResponse
  | setAvailableSymbols
  | plotBufferRequest
  | plotBufferContents
  | unknownHeader (v : Nat)
deriving DecidableEq

inductive UiMsg
  | plotBufferRequest (buffer_name : ByteStr)
  | getObservedSymbolsResponse (observed_symbols : List ByteStr)
deriving DecidableEq

/-- `UiMessage::isSame`: `PlotBufferRequestMessage::isSame` compares
`buffer_name` after a `dynamic_cast` that fails (returns false) on any
other message kind; `GetObservedSymbolsResponseMessage::isSame` likewise
compares `observed_symbols`. -/
def isSame : UiMsg → UiMsg → Bool
  | .plotBufferRequest a, .plotBufferRequest b => decide (a = b)
  | .getObservedSymbolsResponse a, .getObservedSymbolsResponse b => decide (a = b)
  | .plotBufferRequest _, .getObservedSymbolsResponse _ => false
  | .getObservedSymbolsResponse _, .plotBufferRequest _ => false

/-- `OidBridge::get_queue_size_limit`: 1 for
`GetObservedSymbolsResponse`, 512 for `PlotBufferRequest` and every other
(default) header. -/
def get_queue_size_limit : MessageType → Nat
  | .getObservedSymbolsResponse => 1
  | _ => 512

/-- The "remove obsolete messages" loop of
`OidBridge::try_read_incoming_messages`:
`while (!queue.empty() && queue.size() > limit) queue.pop_front();`. -/
def trim_front {α : Type} : List α → Nat → List α
  | [], _ => []
  | x :: rest, limit =>
      if rest.length + 1 > limit then trim_front rest limit else x :: rest

/-- The queue-insertion sequence of `OidBridge::try_read_incoming_messages`
(lines 382-397): `remove_if` every queued entry the new message `isSame`
as, `push_back` the new message, then pop from the front down to the
per-kind size limit. -/
def insert_message (message : UiMsg) (limit : Nat) (q : List UiMsg) : List UiMsg :=
  trim_front (q.filter (fun other => !(isSame message other)) ++ [message]) limit

/-- The Receive Queue Table `received_messages_`: per-header FIFO queues.
`std::map::operator[]` default-constructs an empty queue, so the table is
total with `[]` as the default. -/
def QueueTable := MessageType → List UiMsg

def emptyTable : QueueTable := fun _ => []

def table_set (tbl : QueueTable) (t : MessageType) (q : List UiMsg) : QueueTable :=
  fun t2 => if t2 = t then q else tbl t2

/-- One pump insertion under header `t`: the queue for `t` gets the
dedup-append-trim treatment, other queues are untouched. -/
def table_insert (t : MessageType) (msg : UiMsg) (tbl : QueueTable) : QueueTable :=
  table_set tbl t (insert_message msg (get_queue_size_limit t) (tbl t))

/-- `OidBridge::try_get_stored_message`: `nullptr` (`none`) when the
header has no queue or the queue is empty, otherwise pop and return the
front (oldest) entry. -/
def try_get_stored_message (tbl : QueueTable) (t : MessageType) :
    Option UiMsg × QueueTable :=
  match tbl t with
  | [] => (none, tbl)
  | m :: rest => (some m, table_set tbl t rest)

/-- A whole frame the peer put on the wire that the bridge can decode:
the header plus the body its decode function reads
(`decode_plot_buffer_request` / `decode_get_observed_symbols_response`). -/
inductive IncomingFrame
  | plotBufferRequest (name : ByteStr)
  | getObservedSymbolsResponse (syms : List ByteStr)

def frame_header : IncomingFrame → MessageType
  | .plotBufferRequest _ => .plotBufferRequest
  | .getObservedSymbolsResponse _ => .getObservedSymbolsResponse

def frame_message : IncomingFrame → UiMsg
  | .plotBufferRequest n => .plotBufferRequest n
  | .getObservedSymbolsResponse s => .getObservedSymbolsResponse s

/-- The queue effect of one `try_read_incoming_messages` drain over the
frames available on the socket, in arrival order. -/
def pump_messages (frames : List IncomingFrame) (tbl : QueueTable) : QueueTable :=
  frames.foldl (fun tb f => table_insert (frame_header f) (frame_message f) tb) tbl

/-- `OidBridge::fetch_message`: return an already-stored message of the
requested type if there is one; otherwise run the read pump once (with
its default timeout) and look the queue up exactly once more.  The final component
counts how many times the read pump ran. -/
def fetch_message (frames : List IncomingFrame) (tbl : QueueTable)
    (t : MessageType) : Option UiMsg × QueueTable × Nat :=
  match try_get_stored_message tbl t with
  | (some m, tbl1) => (some m, tbl1, 0)
  | (none, tbl1) =>
      let (r, tbl2) := try_get_stored_message (pump_messages frames tbl1) t
      (r, tbl2, 1)

/- ### Queue discipline lemmas -/

theorem isSame_rfl (m : UiMsg) : isSame m m = true := by
  cases m <;> simp [isSame]

theorem isSame_symm (a b : UiMsg) : isSame a b = isSame b a := by
  cases a <;> cases b <;> simp [isSame, eq_comm]

theorem trim_front_eq_drop {α : Type} (q : List α) (limit : Nat) :
    trim_front q limit = q.drop (q.length - limit) := by
  induction q with
  | nil => simp [trim_front]
  | cons x rest ih =>
      simp only [trim_front, List.length_cons]
      by_cases h : rest.length + 1 > limit
      · rw [if_pos h, ih]
        have hk : rest.length + 1 - limit = (rest.length - limit) + 1 := by omega
        rw [hk, List.drop_succ_cons]
      · rw [if_neg h]
        have hk : rest.length + 1 - limit = 0 := by omega
        rw [hk, List.drop_zero]

theorem length_trim_front {α : Type} (q : List α) (limit : Nat) :
    (trim_front q limit).length ≤ limit := by
  rw [trim_front_eq_drop, List.length_drop]
  omega

theorem drop_append_le {α : Type} (l r : List α) (k : Nat) (h : k ≤ l.length) :
    (l ++ r).drop k = l.drop k ++ r := by
  induction l generalizing k with
  | nil =>
      have : k = 0 := by simpa using h
      simp [this]
  | cons a t ih =>
      cases k with
      | zero => simp
      | succ k2 =>
          simp only [List.cons_append, List.drop_succ_cons]
          exact ih k2 (by simpa using h)

theorem getLast?_append_single {α : Type} (l : List α) (a : α) :
    (l ++ [a]).getLast? = some a := by
  induction l with
  | nil => rfl
  | cons x t ih =>
      rw [List.cons_append, List.getLast?_cons]
      simp [ih]

/-- C1. Queue insertion policy (dedup-then-append-then-trim): the pump's
insertion is literally remove-equal-entries, append at tail, trim from
the head to the per-kind bound; starting from a queue with no two
mutually-`isSame` entries (every queue reachable by this insertion), the
result again has no two mutually-`isSame` entries, the new message sits
at the tail (most recent), and exactly one entry equal to the new message
remains. -/
theorem queue_insert_dedup_policy (msg : UiMsg) (limit : Nat) (hlim : 0 < limit)
    (q : List UiMsg) (hq : q.Pairwise (fun a b => isSame a b = false)) :
    insert_message msg limit q =
      trim_front (q.filter (fun other => !(isSame msg other)) ++ [msg]) limit ∧
    (insert_message msg limit q).Pairwise (fun a b => isSame a b = false) ∧
    (insert_message msg limit q).getLast? = some msg ∧
    ((insert_message msg limit q).filter (fun other => isSame msg other)).length
      = 1 := by
  have hins : insert_message msg limit q =
      trim_front (q.filter (fun other => !(isSame msg other)) ++ [msg]) limit := rfl
  set q1 := q.filter (fun other => !(isSame msg other)) with hq1
  have hdrop : insert_message msg limit q =
      q1.drop ((q1.length + 1) - limit) ++ [msg] := by
    rw [hins, trim_front_eq_drop]
    have hlen : (q1 ++ [msg]).length = q1.length + 1 := by simp
    rw [hlen, drop_append_le _ _ _ (by omega)]
  have hmem1 : ∀ o ∈ q1, isSame msg o = false := by
    intro o ho
    have := (List.mem_filter.mp ho).2
    simpa using this
  have hmemd : ∀ o ∈ q1.drop ((q1.length + 1) - limit), isSame msg o = false :=
    fun o ho => hmem1 o (List.mem_of_mem_drop ho)
  refine ⟨hins, ?_, ?_, ?_⟩
  · rw [hdrop, List.pairwise_append]
    refine ⟨?_, by simp, ?_⟩
    · have hsub : List.Sublist (q1.drop ((q1.length + 1) - limit)) q :=
        List.Sublist.trans (List.drop_sublist _ _) (List.filter_sublist q)
      exact hq.sublist hsub
    · intro a ha b hb
      have hb2 : b = msg := by simpa using hb
      subst hb2
      rw [isSame_symm]
      exact hmemd a ha
  · rw [hdrop]
    exact getLast?_append_single _ _
  · rw [hdrop, List.filter_append]
    have h1 : (q1.drop ((q1.length + 1) - limit)).filter
        (fun other => isSame msg other) = [] := by
      rw [List.filter_eq_nil_iff]
      intro a ha
      simp [hmemd a ha]
    rw [h1]
    simp [isSame_rfl]

/-- Witness for C1: inserting a `PlotBufferRequest` for variable `[1]`
into a queue already holding one leaves a single, most-recent copy. -/
theorem queue_insert_dedup_policy_witness :
    0 < 512 ∧
    ([UiMsg.plotBufferRequest [2], UiMsg.plotBufferRequest [1]] : List UiMsg).Pairwise
      (fun a b => isSame a b = false) ∧
    (insert_message (.plotBufferRequest [1]) 512
        [UiMsg.plotBufferRequest [2], UiMsg.plotBufferRequest [1]] =
      trim_front
        (([UiMsg.plotBufferRequest [2], UiMsg.plotBufferRequest [1]] : List UiMsg).filter
            (fun other => !(isSame (.plotBufferRequest [1]) other)) ++
          [UiMsg.plotBufferRequest [1]]) 512 ∧
    (insert_message (.plotBufferRequest [1]) 512
        [UiMsg.plotBufferRequest [2], UiMsg.plotBufferRequest [1]]).Pairwise
      (fun a b => isSame a b = false) ∧
    (insert_message (.plotBufferRequest [1]) 512
        [UiMsg.plotBufferRequest [2], UiMsg.plotBufferRequest [1]]).getLast? =
      some (.plotBufferRequest [1]) ∧
    ((insert_message (.plotBufferRequest [1]) 512
        [UiMsg.plotBufferRequest [2], UiMsg.plotBufferRequest [1]]).filter
      (fun other => isSame (.plotBufferRequest [1]) other)).length = 1) :=
  ⟨by decide, by decide,
   queue_insert_dedup_policy (.plotBufferRequest [1]) 512 (by decide)
     [UiMsg.plotBufferRequest [2], UiMsg.plotBufferRequest [1]] (by decide)⟩

theorem insert_message_of_not_same (msg : UiMsg) (limit : Nat) (q : List UiMsg)
    (h : ∀ o ∈ q, isSame msg o = false) :
    insert_message msg limit q = trim_front (q ++ [msg]) limit := by
  unfold insert_message
  have hfilter : q.filter (fun other => !(isSame msg other)) = q := by
    rw [List.filter_eq_self]
    intro a ha
    simp [h a ha]
  rw [hfilter]

theorem foldl_insert_distinct (limit : Nat) (hlim : 0 < limit)
    (msgs : List UiMsg)
    (h : msgs.Pairwise (fun a b => isSame a b = false)) :
    msgs.foldl (fun q m => insert_message m limit q) [] =
      msgs.drop (msgs.length - limit) := by
  induction msgs using List.reverseRecOn with
  | nil => simp
  | append_singleton l m ih =>
      rw [List.pairwise_append] at h
      obtain ⟨hl, -, hlm⟩ := h
      rw [List.foldl_append, ih hl, List.foldl_cons, List.foldl_nil]
      set k := l.length - limit with hk
      have hno : ∀ o ∈ l.drop k, isSame m o = false := by
        intro o ho
        rw [isSame_symm]
        exact hlm o (List.mem_of_mem_drop ho) m (by simp)
      rw [insert_message_of_not_same m limit _ hno, trim_front_eq_drop]
      have hdl : (l.drop k).length = l.length - k := List.length_drop _ _
      have hlen1 : ((l.drop k) ++ [m]).length = (l.length - k) + 1 := by
        simp [hdl]
      rw [hlen1]
      set j := (l.length - k + 1) - limit with hj
      have hjle : j ≤ (l.drop k).length := by
        rw [hdl]
        omega
      rw [drop_append_le _ _ _ hjle, List.drop_drop]
      have hlen2 : (l ++ [m]).length = l.length + 1 := by simp
      rw [hlen2]
      have hj2 : (l.length + 1) - limit ≤ l.length := by omega
      rw [drop_append_le _ _ _ hj2]
      have hjk : k + j = (l.length + 1) - limit := by omega
      rw [hjk]

theorem pairwise_nonsame_range (n : Nat) :
    ((List.range n).map (fun i => UiMsg.plotBufferRequest [i])).Pairwise
      (fun a b => isSame a b = false) := by
  rw [List.pairwise_map]
  refine (List.pairwise_lt_range n).imp ?_
  intro a b hab
  simp only [isSame, decide_eq_false_iff_not]
  intro hEq
  simp only [List.cons.injEq, and_true] at hEq
  omega

/-- A batch of 600 pairwise-distinct `PlotBufferRequest`s, for the bound
scenario of the spec's testable properties. -/
def msgs600 : List UiMsg :=
  (List.range 600).map (fun i => UiMsg.plotBufferRequest [i])

/-- C2. Queue bound invariant: `get_queue_size_limit` is 1 for
`GetObservedSymbolsResponse` and 512 for every other kind; one pump
insertion always leaves the touched queue within its kind's bound (the
trim loop drops from the head first); and pushing any sequence of
pairwise-distinct requests into an initially empty queue keeps exactly
the most recent 512 of them, so 600 distinct pushes keep entries 88..599. -/
theorem queue_bound_invariant :
    get_queue_size_limit .getObservedSymbolsResponse = 1 ∧
    (∀ t : MessageType, t ≠ .getObservedSymbolsResponse →
        get_queue_size_limit t = 512) ∧
    (∀ (msg : UiMsg) (t : MessageType) (q : List UiMsg),
        (insert_message msg (get_queue_size_limit t) q).length ≤
          get_queue_size_limit t) ∧
    (∀ msgs : List UiMsg, msgs.Pairwise (fun a b => isSame a b = false) →
        msgs.foldl (fun q m => insert_message m 512 q) [] =
          msgs.drop (msgs.length - 512)) ∧
    (∀ msgs : List UiMsg, msgs.Pairwise (fun a b => isSame a b = false) →
        msgs.length = 600 →
        msgs.foldl (fun q m => insert_message m 512 q) [] = msgs.drop 88 ∧
        (msgs.foldl (fun q m => insert_message m 512 q) []).length = 512) := by
  refine ⟨rfl, ?_, ?_, ?_, ?_⟩
  · intro t ht
    cases t <;> first | rfl | exact absurd rfl ht
  · intro msg t q
    exact length_trim_front _ _
  · intro msgs h
    exact foldl_insert_distinct 512 (by omega) msgs h
  · intro msgs h h600
    have hfold := foldl_insert_distinct 512 (by omega) msgs h
    rw [h600] at hfold
    refine ⟨by rw [hfold], ?_⟩
    rw [hfold, List.length_drop, h600]

/-- Witness for C2: concrete instances of each bounded-queue conjunct,
including the 600-distinct-requests scenario. -/
theorem queue_bound_invariant_witness :
    get_queue_size_limit .plotBufferRequest = 512 ∧
    (insert_message (.plotBufferRequest [1])
        (get_queue_size_limit .plotBufferRequest) []).length ≤
      get_queue_size_limit .plotBufferRequest ∧
    ([UiMsg.plotBufferRequest [1], UiMsg.plotBufferRequest [2]] : List UiMsg).foldl
        (fun q m => insert_message m 512 q) [] =
      ([UiMsg.plotBufferRequest [1], UiMsg.plotBufferRequest [2]] : List UiMsg).drop
        (([UiMsg.plotBufferRequest [1],
           UiMsg.plotBufferRequest [2]] : List UiMsg).length - 512) ∧
    (msgs600.foldl (fun q m => insert_message m 512 q) [] = msgs600.drop 88 ∧
      (msgs600.foldl (fun q m => insert_message m 512 q) []).length = 512) :=
  ⟨queue_bound_invariant.2.1 .plotBufferRequest (by decide),
   queue_bound_invariant.2.2.1 (.plotBufferRequest [1]) .plotBufferRequest [],
   queue_bound_invariant.2.2.2.1
     [UiMsg.plotBufferRequest [1], UiMsg.plotBufferRequest [2]] (by decide),
   queue_bound_invariant.2.2.2.2 msgs600 (pairwise_nonsame_range 600)
     (by simp [msgs600])⟩

/-- C3. Blocking fetch semantics of `OidBridge::fetch_message`: when the
requested kind's queue is non-empty, the oldest entry is returned and
removed and the read pump is not invoked (pump count 0); when it is
empty, the pump runs exactly once, the lookup is retried exactly once on
the pumped table, and `none` comes back if that queue is still empty.
Queues of other kinds are never touched except by the single pump run. -/
theorem fetch_message_spec (frames : List IncomingFrame) (tbl : QueueTable)
    (t : MessageType) :
    (fetch_message frames tbl t).2.2 = (if tbl t = [] then 1 else 0) ∧
    (fetch_message frames tbl t).1 =
      (if tbl t = [] then (pump_messages frames tbl t).head? else (tbl t).head?) ∧
    (fetch_message frames tbl t).2.1 t =
      (if tbl t = [] then (pump_messages frames tbl t).tail else (tbl t).tail) ∧
    (∀ t2, t2 ≠ t → (fetch_message frames tbl t).2.1 t2 =
      (if tbl t = [] then pump_messages frames tbl t2 else tbl t2)) := by
  rcases htq : tbl t with _ | ⟨m, rest⟩
  · rcases hpq : pump_messages frames tbl t with _ | ⟨pm, prest⟩
    · have hf : fetch_message frames tbl t = (none, pump_messages frames tbl, 1) := by
        simp [fetch_message, try_get_stored_message, htq, hpq]
      rw [hf]
      refine ⟨by simp [htq], by simp [htq, hpq], by simp [htq, hpq], ?_⟩
      intro t2 ht2
      simp [htq]
    · have hf : fetch_message frames tbl t =
          (some pm, table_set (pump_messages frames tbl) t prest, 1) := by
        simp [fetch_message, try_get_stored_message, htq, hpq]
      rw [hf]
      refine ⟨by simp [htq], by simp [htq, hpq], by simp [htq, hpq, table_set], ?_⟩
      intro t2 ht2
      simp [htq, table_set, ht2]
  · have hf : fetch_message frames tbl t = (some m, table_set tbl t rest, 0) := by
      simp [fetch_message, try_get_stored_message, htq]
    rw [hf]
    refine ⟨by simp [htq], by simp [htq], by simp [htq, table_set], ?_⟩
    intro t2 ht2
    simp [htq, table_set, ht2]

/-- Witness for C3 (both branches of the if-conditions exercised through
the universally quantified conjunct): fetch on the empty table with no
arriving frames. -/
theorem fetch_message_spec_witness :
    (fetch_message [] emptyTable .getObservedSymbolsResponse).2.2 =
      (if emptyTable MessageType.getObservedSymbolsResponse = [] then 1 else 0) ∧
    (fetch_message [] emptyTable .getObservedSymbolsResponse).2.1
        MessageType.plotBufferRequest =
      (if emptyTable MessageType.getObservedSymbolsResponse = [] then
        pump_messages [] emptyTable MessageType.plotBufferRequest
      else emptyTable MessageType.plotBufferRequest) :=
  ⟨(fetch_message_spec [] emptyTable .getObservedSymbolsResponse).1,
   (fetch_message_spec [] emptyTable .getObservedSymbolsResponse).2.2.2
     MessageType.plotBufferRequest (by decide)⟩

/-- The `dynamic_cast<PlotBufferRequestMessage*>` in
`OidBridge::run_event_loop` followed by the `buffer_name` field access:
`none` models the cast coming back null for a message of another type. -/
def plot_request_name : UiMsg → Option ByteStr
  | .plotBufferRequest n => some n
  | _ => none

/-- The `while ((plot_request_message = try_get_stored_message(...)) != nullptr)`
loop of `OidBridge::run_event_loop`: pop the `PlotBufferRequest` queue
front-first until it is empty, invoking the plot callback once per popped
entry with that entry's `buffer_name`. -/
def drain_loop : List UiMsg → List (Option ByteStr)
  | [] => []
  | m :: rest => plot_request_name m :: drain_loop rest

/-- The pump timeout `static_cast<int>(1000.0 / 5.0)` used by
`OidBridge::run_event_loop`. -/
def run_event_loop_timeout_msec : Nat := 1000 / 5

/-- `OidBridge::run_event_loop`: pump once with the short timeout, then
drain the `PlotBufferRequest` queue entirely.  Returns the final table
and the arguments passed to the plot callback, in call order. -/
def run_event_loop (frames : List IncomingFrame) (tbl : QueueTable) :
    QueueTable × List (Option ByteStr) :=
  let tbl1 := pump_messages frames tbl
  (table_set tbl1 .plotBufferRequest [],
   drain_loop (tbl1 MessageType.plotBufferRequest))

theorem drain_loop_eq_map (q : List UiMsg) :
    drain_loop q = q.map plot_request_name := by
  induction q with
  | nil => rfl
  | cons m rest ih => simp [drain_loop, ih]

/-- C7. Periodic tick: `run_event_loop` pumps with the 200 ms timeout,
then drains the whole `PlotBufferRequest` queue in FIFO order, invoking
the callback exactly once per drained request (same count, i-th call for
the i-th queued request, carrying that request's variable name), and the
`PlotBufferRequest` queue is empty on return while all other queues are
exactly as the pump left them. -/
theorem run_event_loop_spec (frames : List IncomingFrame) (tbl : QueueTable) :
    run_event_loop_timeout_msec = 200 ∧
    (run_event_loop frames tbl).1 MessageType.plotBufferRequest = [] ∧
    (∀ t, t ≠ MessageType.plotBufferRequest →
        (run_event_loop frames tbl).1 t = pump_messages frames tbl t) ∧
    (run_event_loop frames tbl).2 =
      (pump_messages frames tbl MessageType.plotBufferRequest).map
        plot_request_name ∧
    (run_event_loop frames tbl).2.length =
      (pump_messages frames tbl MessageType.plotBufferRequest).length ∧
    (∀ (i : Nat) (s : ByteStr),
        (pump_messages frames tbl MessageType.plotBufferRequest)[i]? =
          some (.plotBufferRequest s) →
        (run_event_loop frames tbl).2[i]? = some (some s)) := by
  refine ⟨rfl, by simp [run_event_loop, table_set], ?_, ?_, ?_, ?_⟩
  · intro t ht
    simp [run_event_loop, table_set, ht]
  · simp [run_event_loop, drain_loop_eq_map]
  · simp [run_event_loop, drain_loop_eq_map]
  · intro i s hi
    simp only [run_event_loop, drain_loop_eq_map, List.getElem?_map, hi,
      Option.map_some]
    rfl

/-- Witness for C7: one arriving plot request for variable `[3]` on an
empty session; the callback list is exactly one call with `[3]`. -/
theorem run_event_loop_spec_witness :
    (run_event_loop [.plotBufferRequest [3]] emptyTable).1
        MessageType.getObservedSymbolsResponse =
      pump_messages [.plotBufferRequest [3]] emptyTable
        MessageType.getObservedSymbolsResponse ∧
    (run_event_loop [.plotBufferRequest [3]] emptyTable).2[0]? =
      some (some [3]) :=
  ⟨(run_event_loop_spec [.plotBufferRequest [3]] emptyTable).2.2.1
      MessageType.getObservedSymbolsResponse (by decide),
   (run_event_loop_spec [.plotBufferRequest [3]] emptyTable).2.2.2.2.2 0 [3]
      (by decide)⟩

/-!
## Read pump trace (C5) and the unknown-header path (C9)

`try_read_incoming_messages` is a do-while loop: each iteration is
`waitForReadyRead(msecs)`, a bytesAvailable check, one header read and
one body decode plus queue insertion; the loop repeats while the socket
still reports buffered bytes.  Qt's socket wait primitive is not part of
the given sources; following the spec's wording ("waits ... for socket
readability"), a wait that begins with bytes already buffered returns
immediately, so only a wait that begins with nothing buffered may block
(bounded by `msecs`).  The event trace records, per wait, the timeout it
was bounded by and whether it could block.
-/

inductive PumpEvent
  | waitReadable (timeout_msec : Nat) (may_block : Bool)
  | readMessage (header : MessageType)
deriving DecidableEq

def isBlockingWait : PumpEvent → Bool
  | .waitReadable _ b => b
  | _ => false

def isReadEvent : PumpEvent → Bool
  | .readMessage _ => true
  | _ => false

/-- Default `msecs` of `try_read_incoming_messages`. -/
def try_read_default_timeout_msec : Nat := 3000

/-- Iterations of the drain loop after the first: they run only while
`bytesAvailable() > 0`, so their wait begins with buffered bytes and
cannot block. -/
def pump_rest (msecs : Nat) : List IncomingFrame → QueueTable →
    QueueTable × List PumpEvent
  | [], tbl => (tbl, [])
  | f :: rest, tbl =>
      let tbl1 := table_insert (frame_header f) (frame_message f) tbl
      let p := pump_rest msecs rest tbl1
      (p.1, PumpEvent.waitReadable msecs false ::
        PumpEvent.readMessage (frame_header f) :: p.2)

/-- `OidBridge::try_read_incoming_messages(msecs)` over the frames this
invocation ends up reading (`frames = []` models "nothing arrived within
the timeout"): the first wait may block; if nothing arrived the pump
returns leaving every queue unchanged; otherwise it reads exactly one
message per iteration while bytes remain. -/
def try_read_incoming_messages (msecs : Nat) (frames : List IncomingFrame)
    (tbl : QueueTable) : QueueTable × List PumpEvent :=
  match frames with
  | [] => (tbl, [PumpEvent.waitReadable msecs true])
  | f :: rest =>
      let tbl1 := table_insert (frame_header f) (frame_message f) tbl
      let p := pump_rest msecs rest tbl1
      (p.1, PumpEvent.waitReadable msecs true ::
        PumpEvent.readMessage (frame_header f) :: p.2)

theorem pump_rest_spec (msecs : Nat) (frames : List IncomingFrame)
    (tbl : QueueTable) :
    (pump_rest msecs frames tbl).1 = pump_messages frames tbl ∧
    (∀ e ∈ (pump_rest msecs frames tbl).2, isBlockingWait e = false) ∧
    ((pump_rest msecs frames tbl).2.filter isReadEvent).length =
      frames.length := by
  induction frames generalizing tbl with
  | nil => exact ⟨rfl, by simp [pump_rest], by simp [pump_rest]⟩
  | cons f rest ih =>
      obtain ⟨ih1, ih2, ih3⟩ := ih (table_insert (frame_header f) (frame_message f) tbl)
      refine ⟨ih1, ?_, ?_⟩
      · intro e he
        simp only [pump_rest, List.mem_cons] at he
        rcases he with h | h | h
        · simp [h, isBlockingWait]
        · simp [h, isBlockingWait]
        · exact ih2 e h
      · simp only [pump_rest, List.filter_cons]
        simp [isReadEvent, ih3]

/-- C5. Read pump blocking discipline: `try_read_incoming_messages`
begins with a single wait bounded by the supplied timeout (the only event
that may block); if nothing arrived within that wait the pump returns at
once with every queue unchanged; every event after the first is a
non-blocking wait (bytes were already buffered) or a committed message
read, and the pump reads exactly one message per frame for as long as the
socket reports buffered bytes.  The default timeout is 3000 ms and the
periodic-polling path uses 200 ms. -/
theorem read_pump_blocking_discipline (msecs : Nat)
    (frames : List IncomingFrame) (tbl : QueueTable) :
    try_read_default_timeout_msec = 3000 ∧
    run_event_loop_timeout_msec = 200 ∧
    (frames = [] → try_read_incoming_messages msecs frames tbl =
        (tbl, [PumpEvent.waitReadable msecs true])) ∧
    (try_read_incoming_messages msecs frames tbl).1 =
      pump_messages frames tbl ∧
    (try_read_incoming_messages msecs frames tbl).2[0]? =
      some (PumpEvent.waitReadable msecs true) ∧
    (∀ e ∈ (try_read_incoming_messages msecs frames tbl).2.tail,
        isBlockingWait e = false) ∧
    ((try_read_incoming_messages msecs frames tbl).2.filter isReadEvent).length =
      frames.length := by
  match frames with
  | [] =>
      refine ⟨rfl, rfl, fun _ => rfl, rfl, rfl, ?_, rfl⟩
      intro e he
      simp [try_read_incoming_messages] at he
  | f :: rest =>
      obtain ⟨h1, h2, h3⟩ :=
        pump_rest_spec msecs rest (table_insert (frame_header f) (frame_message f) tbl)
      refine ⟨rfl, rfl, fun hc => absurd hc (by simp), ?_, rfl, ?_, ?_⟩
      · exact h1
      · intro e he
        simp only [try_read_incoming_messages, List.tail_cons, List.mem_cons] at he
        rcases he with h | h
        · simp [h, isBlockingWait]
        · exact h2 e h
      · simp only [try_read_incoming_messages, List.filter_cons]
        simp [isReadEvent, h3]

/-- Witness for C5: with no frames arriving, the pump with the default
timeout returns the table unchanged after its single bounded wait. -/
theorem read_pump_blocking_discipline_witness :
    try_read_incoming_messages 3000 [] emptyTable =
      (emptyTable, [PumpEvent.waitReadable 3000 true]) ∧
    (try_read_incoming_messages 3000 [] emptyTable).2.filter isReadEvent =
      [] :=
  ⟨(read_pump_blocking_discipline 3000 [] emptyTable).2.2.1 rfl, rfl⟩

/-!
## Unknown-header path (C9)

In `try_read_incoming_messages` the local `unique_ptr<UiMessage> message`
starts null; the switch on the header only assigns it for
`PlotBufferRequest` and `GetObservedSymbolsResponse`, and the `default:`
branch merely logs — control then falls through to the queue insertion
unconditionally.  Entries are therefore `Option UiMsg` (null = `none`),
and evaluating `message->isSame(*other.get())` through a null pointer has
no defined result: the pointer-level insertion returns `none` when that
dereference is reached. -/

/-- The `switch (header)` of `try_read_incoming_messages`: the message a
given header leaves in the `message` pointer, given the bodies the two
decode functions would read.  `none` is the untouched null pointer of the
`default:` branch. -/
def switch_decode (header : MessageType) (request_name : ByteStr)
    (response_symbols : List ByteStr) : Option UiMsg :=
  match header with
  | .plotBufferRequest => some (.plotBufferRequest request_name)
  | .getObservedSymbolsResponse => some (.getObservedSymbolsResponse response_symbols)
  | _ => none

/-- `message->isSame(*other.get())` at pointer level: defined only when
both pointers are non-null. -/
def is_same_deref : Option UiMsg → Option UiMsg → Option Bool
  | some m, some o => some (isSame m o)
  | _, _ => none

/-- The `remove_if` dedup pass at pointer level: `none` when some
predicate evaluation dereferenced a null pointer. -/
def remove_if_deref (message : Option UiMsg) :
    List (Option UiMsg) → Option (List (Option UiMsg))
  | [] => some []
  | e :: rest =>
      match is_same_deref message e with
      | none => none
      | some b =>
          match remove_if_deref message rest with
          | none => none
          | some r => some (if b then r else e :: r)

/-- The full insertion step of `try_read_incoming_messages` at pointer
level: dedup, append (the possibly-null) `message`, trim to the header's
bound. -/
def pump_insert_step (header : MessageType) (message : Option UiMsg)
    (q : List (Option UiMsg)) : Option (List (Option UiMsg)) :=
  match remove_if_deref message q with
  | none => none
  | some q1 => some (trim_front (q1 ++ [message]) (get_queue_size_limit header))

theorem is_same_deref_none_left (e : Option UiMsg) :
    is_same_deref none e = none := by
  cases e <;> rfl

theorem remove_if_deref_some (m : UiMsg) (q : List UiMsg) :
    remove_if_deref (some m) (q.map some) =
      some ((q.filter (fun o => !(isSame m o))).map some) := by
  induction q with
  | nil => rfl
  | cons o rest ih =>
      simp only [List.map_cons, remove_if_deref, is_same_deref, ih,
        List.filter_cons]
      by_cases hb : isSame m o
      · simp [hb]
      · simp [hb]

theorem trim_front_map (q : List UiMsg) (limit : Nat) :
    trim_front (q.map some) limit = (trim_front q limit).map some := by
  rw [trim_front_eq_drop, trim_front_eq_drop, List.length_map,
    List.map_drop]

/-- On the decodable path (non-null message, queue of non-null entries —
the only entries the two known kinds' queues ever hold) the pointer-level
insertion step computes exactly `insert_message`. -/
theorem insert_step_agrees (t : MessageType) (m : UiMsg) (q : List UiMsg) :
    pump_insert_step t (some m) (q.map some) =
      some ((insert_message m (get_queue_size_limit t) q).map some) := by
  simp only [pump_insert_step, remove_if_deref_some, insert_message]
  have h1 : (q.filter (fun o => !(isSame m o))).map some ++ [some m] =
      ((q.filter (fun o => !(isSame m o))) ++ [m]).map some := by
    simp
  rw [h1, trim_front_map]

/-- C9. Unknown-header insertion is not skipped: for a header that is
neither `PlotBufferRequest` nor `GetObservedSymbolsResponse` the switch
leaves the pending-message pointer null, yet control still reaches the
queue insertion — with that kind's queue empty, a null entry is appended
to the Receive Queue Table under that header; with the queue non-empty,
the dedup `remove_if` evaluates the equality predicate through the null
pointer (no defined result). -/
theorem unknown_header_insert_reached (header : MessageType)
    (h1 : header ≠ .plotBufferRequest)
    (h2 : header ≠ .getObservedSymbolsResponse) :
    (∀ (request_name : ByteStr) (response_symbols : List ByteStr),
        switch_decode header request_name response_symbols = none) ∧
    pump_insert_step header none [] = some [none] ∧
    (∀ q : List (Option UiMsg), q ≠ [] →
        pump_insert_step header none q = none) := by
  have hlim : get_queue_size_limit header = 512 := by
    cases header <;> first | rfl | exact absurd rfl h2
  refine ⟨?_, ?_, ?_⟩
  · intro rn rs
    cases header <;> first | rfl | exact absurd rfl h1 | exact absurd rfl h2
  · simp [pump_insert_step, remove_if_deref, trim_front, hlim]
  · intro q hq
    match q with
    | [] => exact absurd rfl hq
    | e :: rest =>
        simp [pump_insert_step, remove_if_deref, is_same_deref_none_left e]

/-- Witness for C9 at the concrete header `SetAvailableSymbols` (a kind
the bridge never decodes). -/
theorem unknown_header_insert_reached_witness :
    switch_decode .setAvailableSymbols [7] [[8]] = none ∧
    pump_insert_step .setAvailableSymbols none [] = some [none] ∧
    pump_insert_step .setAvailableSymbols none
      [some (UiMsg.plotBufferRequest [1])] = none :=
  ⟨(unknown_header_insert_reached .setAvailableSymbols (by decide)
      (by decide)).1 [7] [[8]],
   (unknown_header_insert_reached .setAvailableSymbols (by decide)
      (by decide)).2.1,
   (unknown_header_insert_reached .setAvailableSymbols (by decide)
      (by decide)).2.2 [some (.plotBufferRequest [1])] (by decide)⟩

/-!
## Plot-buffer submission (C6) and the foreign-runtime entry gates (C8)
-/

/-- Modelled from the spec: the `BufferType` element-type enumeration of
`BufferPayload` — its header (message_type.h / raw_data_decode.h) is not
among the given sources; the spec lists
`enum{UnsignedByte, Short, UnsignedShort, Int32, Float32, Float64}`. -/
inductive BufferType
  | UnsignedByte
  | Short
  | UnsignedShort
  | Int32
  | Float32
  | Float64
deriving DecidableEq

/-- Modelled from the spec: `typesize` (declared outside the given
sources) is `sizeof(element_type)`, per the spec's `raw_bytes: byte
sequence of length stride*height*channels*sizeof(element_type)`. -/
def typesize : BufferType → Nat
  | .UnsignedByte => 1
  | .Short => 2
  | .UnsignedShort => 2
  | .Int32 => 4
  | .Float32 => 4
  | .Float64 => 8

/-- The marshaled arguments of `oid_plot_buffer` after the
field-presence/type checks and pointer retrieval succeeded: `buff` is the
byte range behind the (non-null) pointer, so the supplied
`buff_size` is `buff.length`. -/
structure PlotBufferArgs where
  variable_name : ByteStr
  display_name : ByteStr
  pixel_layout : ByteStr
  transpose_buffer : Bool
  buff_width : Int
  buff_height : Int
  buff_channels : Int
  buff_stride : Int
  buff_type : BufferType
  buff : List Nat

/-- `static_cast<size_t>` applied to a signed value: reduce into the
64-bit unsigned range. -/
def sizeTOfInt (i : Int) : Nat := (i % (2 : Int) ^ 64).toNat

/-- `buff_size_expected` of `oid_plot_buffer`:
`static_cast<size_t>(buff_stride * buff_height * buff_channels) * typesize(buff_type)`. -/
def buff_size_expected (a : PlotBufferArgs) : Nat :=
  sizeTOfInt (a.buff_stride * a.buff_height * a.buff_channels) *
    typesize a.buff_type

/-- A frame written to the socket, at field granularity.  The
`plotBufferContents` fields are, in push order, exactly what
`OidBridge::plot_buffer` composes after its `MessageType` discriminant. -/
inductive SentFrame
  | plotBufferContents (variable_name display_name pixel_layout : ByteStr)
      (transpose : Bool) (width height channels stride : Int)
      (element_type : BufferType) (payload : List Nat)
deriving DecidableEq

/-- `OidBridge::plot_buffer`: compose the single `PlotBufferContents`
frame from the given fields plus `push(buff_ptr, buff_length)` and send
it. -/
def OidBridge_plot_buffer (a : PlotBufferArgs) : List SentFrame :=
  [SentFrame.plotBufferContents a.variable_name a.display_name
    a.pixel_layout a.transpose_buffer a.buff_width a.buff_height
    a.buff_channels a.buff_stride a.buff_type a.buff]

/-- The tail of `oid_plot_buffer` (oid_bridge.cpp lines 815-850): after
computing `buff_size_expected`, reject with a raised error if the
supplied byte length is smaller — before constructing or sending any
frame — otherwise send through `OidBridge::plot_buffer`.  The result
carries the frames that reached the socket. -/
def oid_plot_buffer (a : PlotBufferArgs) : Except String (List SentFrame) :=
  if a.buff.length < buff_size_expected a then
    Except.error "oid_plot_buffer received shorter buffer then expected"
  else Except.ok (OidBridge_plot_buffer a)

/-- C6. Undersized-buffer guard atomicity: for dimension fields that are
nonnegative and whose product does not overflow a C `int`, a submission
whose byte length is below `stride*height*channels*element_size` is
rejected with the host-visible error and no frame is sent; a submission
passing the check sends exactly one complete `PlotBufferContents` frame
carrying all the submitted fields. -/
theorem plot_buffer_guard (a : PlotBufferArgs)
    (h1 : 0 ≤ a.buff_stride) (h2 : 0 ≤ a.buff_height)
    (h3 : 0 ≤ a.buff_channels)
    (h4 : a.buff_stride * a.buff_height * a.buff_channels < 2 ^ 31) :
    (a.buff.length <
        (a.buff_stride * a.buff_height * a.buff_channels).toNat *
          typesize a.buff_type →
      oid_plot_buffer a =
        Except.error "oid_plot_buffer received shorter buffer then expected") ∧
    (¬ a.buff.length <
        (a.buff_stride * a.buff_height * a.buff_channels).toNat *
          typesize a.buff_type →
      oid_plot_buffer a =
        Except.ok [SentFrame.plotBufferContents a.variable_name
          a.display_name a.pixel_layout a.transpose_buffer a.buff_width
          a.buff_height a.buff_channels a.buff_stride a.buff_type a.buff]) := by
  have hprod : 0 ≤ a.buff_stride * a.buff_height * a.buff_channels :=
    mul_nonneg (mul_nonneg h1 h2) h3
  have hmod : a.buff_stride * a.buff_height * a.buff_channels %
      (2 : Int) ^ 64 = a.buff_stride * a.buff_height * a.buff_channels :=
    Int.emod_eq_of_lt hprod (by omega)
  have hexp : buff_size_expected a =
      (a.buff_stride * a.buff_height * a.buff_channels).toNat *
        typesize a.buff_type := by
    rw [buff_size_expected, sizeTOfInt, hmod]
  constructor
  · intro hlt
    rw [oid_plot_buffer, if_pos (by rw [hexp]; exact hlt)]
  · intro hge
    rw [oid_plot_buffer, if_neg (by rw [hexp]; exact hge)]
    rfl

/-- Witness for C6: a 2x2 single-channel byte buffer with stride 2 needs
4 bytes; 3 supplied bytes are rejected with no frame sent, 4 supplied
bytes produce the one complete frame. -/
theorem plot_buffer_guard_witness :
    oid_plot_buffer ⟨[9], [9], [114], false, 2, 2, 1, 2,
        .UnsignedByte, [10, 20, 30]⟩ =
      Except.error "oid_plot_buffer received shorter buffer then expected" ∧
    oid_plot_buffer ⟨[9], [9], [114], false, 2, 2, 1, 2,
        .UnsignedByte, [10, 20, 30, 40]⟩ =
      Except.ok [SentFrame.plotBufferContents [9] [9] [114] false 2 2 1 2
        .UnsignedByte [10, 20, 30, 40]] :=
  ⟨(plot_buffer_guard ⟨[9], [9], [114], false, 2, 2, 1, 2,
        .UnsignedByte, [10, 20, 30]⟩ (by decide) (by decide) (by decide)
        (by decide)).1 (by decide),
   (plot_buffer_guard ⟨[9], [9], [114], false, 2, 2, 1, 2,
        .UnsignedByte, [10, 20, 30, 40]⟩ (by decide) (by decide) (by decide)
        (by decide)).2 (by decide)⟩

/-- The bridge-side operation an entry point dispatches to once the
handler null-check passed: a marker at the granularity this claim needs
(the full behavior of the run-loop and plot paths is modelled above by
`run_event_loop` and `oid_plot_buffer`). -/
inductive EntryAction
  | logMessage
  | cleanup
  | execStart
  | isWindowReady
  | getObservedBuffers
  | setAvailableSymbols (syms : List ByteStr)
deriving DecidableEq

/-- `oid_log_message`: null-handler prologue, then `app->log_message`. -/
def oid_log_message_entry (handler : Option Unit) :
    Except String EntryAction :=
  match handler with
  | none => Except.error "oid_log_message received null application handler"
  | some _ => Except.ok EntryAction.logMessage

/-- `oid_cleanup`: null-handler prologue, then `delete app`. -/
def oid_cleanup_entry (handler : Option Unit) : Except String EntryAction :=
  match handler with
  | none => Except.error "oid_cleanup received null application handler"
  | some _ => Except.ok EntryAction.cleanup

/-- `oid_exec`: null-handler prologue, then `app->start()`. -/
def oid_exec_entry (handler : Option Unit) : Except String EntryAction :=
  match handler with
  | none => Except.error "oid_exec received null application handler"
  | some _ => Except.ok EntryAction.execStart

/-- `oid_is_window_ready`: null-handler prologue (returning 0 with the
raised error), then `app->is_window_ready()`. -/
def oid_is_window_ready_entry (handler : Option Unit) :
    Except String EntryAction :=
  match handler with
  | none => Except.error "oid_is_window_ready received null application handler"
  | some _ => Except.ok EntryAction.isWindowReady

/-- `oid_get_observed_buffers`: null-handler prologue, then
`app->get_observed_symbols()`. -/
def oid_get_observed_buffers_entry (handler : Option Unit) :
    Except String EntryAction :=
  match handler with
  | none => Except.error "oid_get_observed_buffers received null application handler"
  | some _ => Except.ok EntryAction.getObservedBuffers

/-- `oid_set_available_symbols`: null-handler prologue, then
`app->set_available_symbols(...)`. -/
def oid_set_available_symbols_entry (handler : Option Unit)
    (syms : List ByteStr) : Except String EntryAction :=
  match handler with
  | none => Except.error "oid_set_available_symbols received null application handler"
  | some _ => Except.ok (EntryAction.setAvailableSymbols syms)

/-- `oid_run_event_loop`: null-handler prologue, then
`app->run_event_loop()` (the session state is the Receive Queue Table). -/
def oid_run_event_loop_entry (handler : Option QueueTable)
    (frames : List IncomingFrame) :
    Except String (QueueTable × List (Option ByteStr)) :=
  match handler with
  | none => Except.error "oid_run_event_loop received null application handler"
  | some tbl => Except.ok (run_event_loop frames tbl)

/-- `oid_plot_buffer`: null-handler prologue before any of the metadata
checks, then the marshaling/guard/send path modelled by
`oid_plot_buffer`. -/
def oid_plot_buffer_entry (handler : Option Unit) (a : PlotBufferArgs) :
    Except String (List SentFrame) :=
  match handler with
  | none => Except.error "oid_plot_buffer received null application handler"
  | some _ => oid_plot_buffer a

/-- C8. Null session handle handling: every foreign-runtime entry point,
called with a null handler, surfaces the matching host-visible runtime
error and performs no bridge operation (the result carries an error and
no action / no sent frame). -/
theorem null_handler_guard :
    oid_log_message_entry none =
      Except.error "oid_log_message received null application handler" ∧
    oid_cleanup_entry none =
      Except.error "oid_cleanup received null application handler" ∧
    oid_exec_entry none =
      Except.error "oid_exec received null application handler" ∧
    oid_is_window_ready_entry none =
      Except.error "oid_is_window_ready received null application handler" ∧
    oid_get_observed_buffers_entry none =
      Except.error "oid_get_observed_buffers received null application handler" ∧
    (∀ syms, oid_set_available_symbols_entry none syms =
      Except.error "oid_set_available_symbols received null application handler") ∧
    (∀ frames, oid_run_event_loop_entry none frames =
      Except.error "oid_run_event_loop received null application handler") ∧
    (∀ a, oid_plot_buffer_entry none a =
      Except.error "oid_plot_buffer received null application handler") :=
  ⟨rfl, rfl, rfl, rfl, rfl, fun _ => rfl, fun _ => rfl, fun _ => rfl⟩
